import Mathlib

/-!
Verification development for the `microns-utils` repository.

The repository consists of three Python modules of utility functions:
`version_utils.py`, `filepath_utils.py` and `ap_utils.py`.  This file gives a
shallow embedding of those functions in Lean 4 and proves properties of the
embedding.  Python strings are modelled as `String`/`List Char`; interactions
with the network, the filesystem, `sys.path`, `importlib.metadata` and the
CAVE client library are modelled by explicit environment records; code that can
raise an exception is modelled in `Except`/`Option`.  Regex character class
`\d` is modelled as the ASCII digits (the embedding considers ASCII inputs).
-/

/- ===== Python string primitives ===== -/

/-- Model of Python `str.strip(chars)` on character lists: drop the characters
belonging to `S` from both ends of the list. -/
def pyStrip (cs : List Char) (S : List Char) : List Char :=
  ((cs.dropWhile (fun c => decide (c ∈ S))).reverse.dropWhile
      (fun c => decide (c ∈ S))).reverse

/-- Model of Python `str.split(sep)` for a one-character separator: the list of
maximal (possibly empty) segments between occurrences of `sep`.  On the empty
string it returns `[[]]`, as Python's `''.split(sep) == ['']`. -/
def pySplit : List Char → Char → List (List Char)
  | [], _ => [[]]
  | c :: rest, sep =>
    match pySplit rest sep with
    | [] => [[]]
    | h :: t => if c = sep then [] :: h :: t else (c :: h) :: t

/-- Split a list at the first occurrence of `sep`: returns the part strictly
before it and, when `sep` occurs, the part strictly after it. -/
def splitFirst (sep : Char) : List Char → List Char × Option (List Char)
  | [] => ([], none)
  | c :: cs =>
    if c = sep then ([], some cs)
    else
      let r := splitFirst sep cs
      (c :: r.1, r.2)

/- ===== The semantic-version regular expression of version_utils.parse_version =====

The source anchors the semver.org regex with `^` and `$` and has no MULTILINE
flag, so `re.search` can only match the whole candidate string (`$` also
matches just before one final newline; that case is handled in `semverSearch`
below).  The definitions here decide membership in the language of

  (0|[1-9]\d*)\.(0|[1-9]\d*)\.(0|[1-9]\d*)
  (?:-((?:0|[1-9]\d*|\d*[a-zA-Z-][0-9a-zA-Z-]*)(?:\.(?:0|[1-9]\d*|\d*[a-zA-Z-][0-9a-zA-Z-]*))*))?
  (?:\+([0-9a-zA-Z-]+(?:\.[0-9a-zA-Z-]+)*))?

A string of the language contains no '+' before the build separator and the
core `x.y.z` part contains no '-', so splitting at the first '+' and then at
the first '-' recovers exactly the decomposition the regex describes. -/

/-- Characters matched by the regex class `[0-9a-zA-Z-]`. -/
def isAlnumHyphen (c : Char) : Bool :=
  c.isDigit || c.isAlpha || c = '-'

/-- Language of `(0|[1-9]\d*)`: the single character "0", or a nonzero digit
followed by digits. -/
def isNumericNoLeadZero : List Char → Bool
  | [] => false
  | c :: rest =>
    (c = '0' && rest.isEmpty) || (('1' ≤ c && c ≤ '9') && rest.all (·.isDigit))

/-- Language of one pre-release identifier
`(0|[1-9]\d*|\d*[a-zA-Z-][0-9a-zA-Z-]*)`: either a numeric identifier with no
leading zero, or a nonempty alphanumeric/hyphen word containing at least one
non-digit. -/
def isPreId (cs : List Char) : Bool :=
  isNumericNoLeadZero cs ||
    (!cs.isEmpty && cs.all isAlnumHyphen && cs.any (fun c => !c.isDigit))

/-- Language of the whole pre-release part: dot-separated pre-release
identifiers (an empty segment makes it fail, so the part is nonempty). -/
def isPre (cs : List Char) : Bool :=
  (pySplit cs '.').all isPreId

/-- Language of one build identifier `[0-9a-zA-Z-]+`. -/
def isBuildId (cs : List Char) : Bool :=
  !cs.isEmpty && cs.all isAlnumHyphen

/-- Language of the build-metadata part: dot-separated build identifiers. -/
def isBuild (cs : List Char) : Bool :=
  (pySplit cs '.').all isBuildId

/-- Language of the version core `(0|[1-9]\d*)\.(0|[1-9]\d*)\.(0|[1-9]\d*)`. -/
def isCore (cs : List Char) : Bool :=
  match pySplit cs '.' with
  | [a, b, c] => isNumericNoLeadZero a && isNumericNoLeadZero b && isNumericNoLeadZero c
  | _ => false

/-- Decides membership in the language of the anchored semver regex used by
`parse_version`. -/
def isSemver (cs : List Char) : Bool :=
  let pb := splitFirst '+' cs
  let cp := splitFirst '-' pb.1
  isCore cp.1 &&
    (match cp.2 with
     | none => true
     | some pre => isPre pre) &&
    (match pb.2 with
     | none => true
     | some b => isBuild b)

/-- Characters that can occur in a string of the semver language. -/
def goodChar (c : Char) : Bool :=
  c.isDigit || c.isAlpha || c = '-' || c = '+' || c = '.'

/- ===== version_utils.parse_version ===== -/

/-- The strip characters of `text.strip(' "' "'")` in `parse_version`:
space, double quote and single quote. -/
def stripChars : List Char := [' ', '"', '\'']

/-- The candidate string handed to `re.search` by `parse_version`:
the input is first stripped of newlines at both ends, then — when it contains
an '=' — replaced by `text.split('=')[1]` (the segment between the first and
the second '='), and finally stripped of surrounding spaces and quotes. -/
def candidate (text : List Char) : List Char :=
  let t1 := pyStrip text ['\n']
  let parts := pySplit t1 '='
  if 1 < parts.length then pyStrip (parts.getD 1 []) stripChars
  else pyStrip t1 stripChars

/-- Result of `re.search(semver, cs)` followed by `parsed.group() if parsed
else ""`: the pattern is anchored by `^` and `$` (no MULTILINE), so it matches
exactly when the whole string is in the semver language, or all of it except
one final newline is (Python's `$` also matches just before a trailing
newline); in the latter case the group is the string without that newline. -/
def semverSearch (cs : List Char) : List Char :=
  if isSemver cs then cs
  else if cs.getLast? = some '\n' ∧ isSemver cs.dropLast then cs.dropLast
  else []

/-- Decides whether `re.search` finds a match in `cs` (see `semverSearch`). -/
def semverMatchable (cs : List Char) : Bool :=
  isSemver cs || (decide (cs.getLast? = some '\n') && isSemver cs.dropLast)

/-- Embedding of `version_utils.parse_version`. -/
def parse_version (text : String) : String :=
  ⟨semverSearch (candidate text.toList)⟩

/-- The assignment text of a `version.py` file for version `V`, as described in
the docstring of `parse_version`. -/
def assignmentText (V : String) : String :=
  "__version__ = \"" ++ V ++ "\""

/- ===== version_utils.get_latest_version_from_github ===== -/

/-- Minimal JSON value model for the responses of the GitHub API that
`json.loads` produces. -/
inductive Json
  | null
  | bool (b : Bool)
  | num (n : Int)
  | str (s : String)
  | arr (xs : List Json)
  | obj (fields : List (String × Json))

/-- Environment of the GitHub-facing code: `requests.get` (`none` models a
raised exception / unreachable network) and `json.loads` (`none` models a
`JSONDecodeError`). -/
structure GHEnv where
  httpGet : String → Option String
  jsonLoads : String → Option Json

/-- Python `x[0]` on a decoded JSON value: the head of an array; anything else
(empty array, object, scalar) raises, modelled as `none`. -/
def jsonIndex0 : Json → Option Json
  | .arr (x :: _) => some x
  | _ => none

/-- Python `x[key]` on a decoded JSON value: field lookup in an object;
anything else raises, modelled as `none`. -/
def jsonKey (key : String) : Json → Option Json
  | .obj fields => fields.lookup key
  | _ => none

/-- Python `x[1:]` as used on the extracted tag name: drops the first character
of a JSON string; a non-string value makes the subsequent string operations in
`parse_version` raise, modelled as `none`. -/
def jsonStringDrop1 : Json → Option String
  | .str s => some (s.drop 1)
  | _ => none

/-- The extraction `json.loads(f.text)[0][key][1:]` performed on the GitHub
API response body; `none` models any exception raised along the way. -/
def jsonFirstField (env : GHEnv) (body key : String) : Option String :=
  match env.jsonLoads body with
  | none => none
  | some j =>
    match jsonIndex0 j with
    | none => none
    | some j0 =>
      match jsonKey key j0 with
      | none => none
      | some jv => jsonStringDrop1 jv

/-- URL of the raw `version.py` file used for `source='commit'`. -/
def rawFileURL (owner repo branch path : String) : String :=
  "https://raw.githubusercontent.com/" ++ owner ++ "/" ++ repo ++ "/" ++
    branch ++ "/" ++ path

/-- URL of the tags listing used for `source='tag'`. -/
def tagsURL (owner repo : String) : String :=
  "https://api.github.com/repos/" ++ owner ++ "/" ++ repo ++ "/tags"

/-- URL of the releases listing used for `source='release'`. -/
def releasesURL (owner repo : String) : String :=
  "https://api.github.com/repos/" ++ owner ++ "/" ++ repo ++ "/releases"

/-- The warnings the version_utils module can emit via `warnings.warn`,
identified by call site; `notLatestVersion` carries the values interpolated
into its message. -/
inductive Warning
  | packageNotFoundInDistributions
  | failedToReachGithub
  | noVersionPyFound
  | multipleVersionPyFound
  | notLatestVersion (package version latest : String)
  deriving DecidableEq

/-- Result of `get_latest_version_from_github`: the returned string and the
warnings emitted during the call. -/
structure GHResult where
  latest : String
  warnings : List Warning
  deriving DecidableEq

/-- The `try:` block of `get_latest_version_from_github`: `some v` when `latest`
is assigned `v` and the block completes, `none` when an exception is raised
(failed request, failed extraction, failed `assert`, unrecognized source). -/
def ghTryBody (env : GHEnv) (repo owner branch source : String)
    (path_to_version_file : Option String) : Option String :=
  if source = "commit" then
    match path_to_version_file with
    | none => none
    | some p =>
      match env.httpGet (rawFileURL owner repo branch p) with
      | none => none
      | some body => some (parse_version body)
  else if source = "tag" then
    match env.httpGet (tagsURL owner repo) with
    | none => none
    | some body => (jsonFirstField env body "name").map parse_version
  else if source = "release" then
    match env.httpGet (releasesURL owner repo) with
    | none => none
    | some body => (jsonFirstField env body "tag_name").map parse_version
  else none

/-- Embedding of `version_utils.get_latest_version_from_github`: the body runs
under a bare `except:`, so any exception leads to returning the initial
`latest = ""` after warning (when `warn` is set). -/
def get_latest_version_from_github (env : GHEnv)
    (repo owner branch source : String) (path_to_version_file : Option String)
    (warn : Bool) : GHResult :=
  match ghTryBody env repo owner branch source path_to_version_file with
  | some v => ⟨v, []⟩
  | none => ⟨"", if warn then [.failedToReachGithub] else []⟩

/-- The keyword arguments `get_package_version` forwards to
`get_latest_version_from_github` via `check_if_latest_kwargs`. -/
structure GHKwargs where
  repo : String
  owner : String
  branch : String
  source : String
  path_to_version_file : Option String
  warn : Bool

/-- Call `get_latest_version_from_github` with unpacked keyword arguments, as
`get_package_version` does with `**check_if_latest_kwargs`. -/
def gh_call (env : GHEnv) (kw : GHKwargs) : GHResult :=
  get_latest_version_from_github env kw.repo kw.owner kw.branch kw.source
    kw.path_to_version_file kw.warn

/- ===== version_utils / filepath_utils: files and distributions ===== -/

/-- Exceptions that the embedded functions can leave unhandled. -/
inductive PyErr
  | ioError
  | indexError
  | assertionError
  deriving DecidableEq

/-- One entry of `importlib.metadata.distributions()`: its metadata name and
its version string. -/
structure PkgDist where
  name : String
  version : String
  deriving DecidableEq

/-- Environment of the package-version functions: the installed distributions,
`sys.path`, `os.walk` (mapping a path to its `(root, dirs, files)` triples in
walk order) and `readlines` on an opened file (`none` models an unreadable
path, i.e. `open` raising). -/
structure PkgEnv where
  distributions : List PkgDist
  sysPath : List String
  walk : String → List (String × List String × List String)
  readLines : String → Option (List String)
  gh : GHEnv

/-- Model of `os.path.join(root, name)` for the two-argument uses in the
repository. -/
def os_path_join (a b : String) : String :=
  if b.toList.head? = some '/' then b
  else if a = "" then a ++ b
  else if a.toList.getLast? = some '/' then a ++ b
  else a ++ "/" ++ b

namespace version_utils

/-- Embedding of `version_utils.find_all_matching_files`: walks `path` and
collects `os.path.join(root, name)` (a plain string) for every directory whose
file list contains `name`. -/
def find_all_matching_files (walk : String → List (String × List String × List String))
    (name path : String) : List String :=
  (walk path).filterMap
    (fun t => if name ∈ t.2.2 then some (os_path_join t.1 name) else none)

end version_utils

/-- The comprehension `[dist.version for dist in metadata.distributions() if
dist.metadata["Name"] == package]`. -/
def distVersions (env : PkgEnv) (package : String) : List String :=
  (env.distributions.filter (fun d => d.name = package)).map PkgDist.version

/-- Result of the installed-version helpers: the returned string and the
warnings emitted during the call. -/
structure VerResult where
  version : String
  warnings : List Warning
  deriving DecidableEq

/-- Embedding of `version_utils.get_package_version_from_distributions`. -/
def get_package_version_from_distributions (env : PkgEnv) (package : String)
    (warn : Bool) : VerResult :=
  match distVersions env package with
  | [] => ⟨"", if warn then [.packageNotFoundInDistributions] else []⟩
  | v :: _ => ⟨v, []⟩

/-- The search path `''.join([p + path_to_version_file for p in sys.path if
re.findall(package+'$', p)])` of `get_package_version_from_sys_path`; the
regex test is modelled literally, i.e. as `p` ending with `package`. -/
def sysPathDir (env : PkgEnv) (package path_to_version_file : String) : String :=
  String.join ((env.sysPath.filter
      (fun p => List.isSuffixOf package.toList p.toList)).map
    (fun p => p ++ path_to_version_file))

/-- Embedding of `version_utils.get_package_version_from_sys_path`.  An
unreadable single match makes `open` raise and an empty one makes
`readlines()[0]` raise; both propagate to the caller. -/
def get_package_version_from_sys_path (env : PkgEnv)
    (package path_to_version_file : String) (warn : Bool) :
    Except PyErr VerResult :=
  let file := version_utils.find_all_matching_files env.walk ("version.py")
    (sysPathDir env package path_to_version_file)
  if file.length = 0 then .ok ⟨"", if warn then [.noVersionPyFound] else []⟩
  else if 1 < file.length then
    .ok ⟨"", if warn then [.multipleVersionPyFound] else []⟩
  else
    match env.readLines (file.getD 0 "") with
    | none => .error .ioError
    | some [] => .error .indexError
    | some (l :: _) => .ok ⟨parse_version l, []⟩

/-- The tail of `get_package_version` once `__version__` has been bound to a
non-empty installed version `v` with the warnings `ws` emitted so far: when
`check_if_latest` is set, query GitHub and warn when the strings differ. -/
def finishVersion (env : PkgEnv) (package : String) (check_if_latest : Bool)
    (kw : GHKwargs) (warn : Bool) (v : String) (ws : List Warning) :
    Except PyErr VerResult :=
  if check_if_latest then
    let gh := gh_call env.gh kw
    .ok ⟨v, ws ++ gh.warnings ++
      (if v ≠ gh.latest ∧ warn then [.notLatestVersion package v gh.latest]
       else [])⟩
  else .ok ⟨v, ws⟩

/-- Embedding of `version_utils.get_package_version`: distributions are
checked first (with warnings suppressed), then `sys.path` with
`path_to_version_file='/..'`; an empty result at both tiers returns `""`. -/
def get_package_version (env : PkgEnv) (package : String)
    (check_if_latest : Bool) (check_if_latest_kwargs : GHKwargs)
    (warn : Bool) : Except PyErr VerResult :=
  let dist := get_package_version_from_distributions env package false
  if dist.version = "" then
    match get_package_version_from_sys_path env package ("/..") warn with
    | .error e => .error e
    | .ok sysr =>
      if sysr.version = "" then .ok ⟨"", sysr.warnings⟩
      else finishVersion env package check_if_latest check_if_latest_kwargs
        warn sysr.version sysr.warnings
  else
    finishVersion env package check_if_latest check_if_latest_kwargs warn
      dist.version dist.warnings

/- ===== filepath_utils ===== -/

/-- Model of a `pathlib.Path` value as an opaque wrapper of the string it was
constructed from. -/
structure PyPath where
  path : String
  deriving DecidableEq

namespace filepath_utils

/-- Embedding of `filepath_utils.find_all_matching_files`: identical to the
version_utils copy except that each joined path is wrapped in `Path`. -/
def find_all_matching_files (walk : String → List (String × List String × List String))
    (name path : String) : List PyPath :=
  (walk path).filterMap
    (fun t => if name ∈ t.2.2 then some ⟨os_path_join t.1 name⟩ else none)

/-- Embedding of `filepath_utils.validate_filepath`: `assert
Path(filepath).exists()` then return the path; the filesystem is the
predicate `pathExists`. -/
def validate_filepath (pathExists : PyPath → Bool) (filepath : String) :
    Except PyErr PyPath :=
  let p : PyPath := ⟨filepath⟩
  if pathExists p then .ok p else .error .assertionError

end filepath_utils

/- ===== ap_utils.set_CAVEclient ===== -/

/-- The module constant `ap_utils.default_public_datastack`. -/
def default_public_datastack : String := "minnie65_public_v117"

/-- The module constant `ap_utils.default_live_datastack`. -/
def default_live_datastack : String := "minnie65_phase3_v1"

/-- The error classes `set_CAVEclient` distinguishes when `CAVEclient(...)`
raises: an `"invalid_token"` message, a `"missing_tos"` message, or anything
else. -/
inductive CaveErrorKind
  | invalidToken
  | missingTos
  | other
  deriving DecidableEq

/-- Observable state of a constructed CAVE client: the datastack it ended up
with (also settable through `client.info._datastack_name`), the auth token it
was constructed with, and the materialization version set afterwards. -/
structure Client where
  datastack : Option String
  authToken : Option String
  matVersion : Option Int
  deriving DecidableEq

/-- Environment of `set_CAVEclient`: the three `CAVEclient(...)` call sites
(the initial `CAVEclient(datastack, auth_token=token)`, the bare
`CAVEclient()` in the invalid-token branch, and the `CAVEclient(datastack)`
retry after `save_token`), plus the text the user types at `input(...)`. -/
structure CaveEnv where
  construct : Option String → Option String → Except CaveErrorKind Client
  constructBare : Except CaveErrorKind Client
  constructAfterSave : Option String → Except CaveErrorKind Client
  inputText : String

/-- The two alias-rewriting `if` statements at the top of `set_CAVEclient`,
run before any client is constructed. -/
def resolve_datastack (datastack : Option String) : Option String :=
  let d1 := if datastack = some "m65_public" then some default_public_datastack
            else datastack
  if d1 = some "m65_live" then some default_live_datastack else d1

/-- The trailing `if ver is not None: client.materialize._version = int(ver)`
of `set_CAVEclient`. -/
def applyVer (c : Client) (ver : Option Int) : Client :=
  match ver with
  | none => c
  | some v => { c with matVersion := some v }

/-- Embedding of `ap_utils.set_CAVEclient`.  `.ok none` models the Python
`return` / `return None` of the missing-TOS and generic error branches;
`.error e` models an exception raised by a nested constructor call escaping
to the caller. -/
def set_CAVEclient (env : CaveEnv) (datastack : Option String)
    (ver : Option Int) (token : Option String) :
    Except CaveErrorKind (Option Client) :=
  let ds := resolve_datastack datastack
  match env.construct ds token with
  | .ok client => .ok (some (applyVer client ver))
  | .error .invalidToken =>
    match env.constructBare with
    | .error e => .error e
    | .ok client0 =>
      if env.inputText = "CANCEL" then .ok (some { client0 with datastack := ds })
      else
        match env.constructAfterSave ds with
        | .error e => .error e
        | .ok client1 => .ok (some (applyVer client1 ver))
  | .error .missingTos => .ok none
  | .error .other => .ok none

/-- A CAVE environment whose constructor always succeeds and records its
arguments in the client, exposing what `set_CAVEclient` passes to
`CAVEclient(...)`. -/
def recordingCaveEnv : CaveEnv where
  construct := fun ds tok => .ok ⟨ds, tok, none⟩
  constructBare := .ok ⟨none, none, none⟩
  constructAfterSave := fun ds => .ok ⟨ds, none, none⟩
  inputText := ""

/- ===== Concrete environments used by witnesses and counterexamples ===== -/

/-- A GitHub environment in which every request raises. -/
def ghEnvDown : GHEnv where
  httpGet := fun _ => none
  jsonLoads := fun _ => none

/-- Arbitrary well-formed keyword arguments for the GitHub check. -/
def kwExample : GHKwargs where
  repo := "microns-utils"
  owner := "cajal"
  branch := "main"
  source := "tag"
  path_to_version_file := none
  warn := true

/-- A package environment with one matching distribution whose version string
is empty, and a `sys.path` tree in which exactly one `version.py` holds
version 1.2.3; exercises the fallback from the distributions tier. -/
def envEmptyDistVersion : PkgEnv where
  distributions := [⟨"pkg", ""⟩]
  sysPath := ["/lib/pkg"]
  walk := fun p =>
    if p = "/lib/pkg/.." then [("/lib/pkg/..", [], ["version.py"])] else []
  readLines := fun f =>
    if f = "/lib/pkg/../version.py" then some ["1.2.3\n"] else none
  gh := ghEnvDown

/-- A package environment with one installed distribution of version 1.0.0
and an empty filesystem. -/
def envDistFound : PkgEnv where
  distributions := [⟨"pkg", "1.0.0"⟩]
  sysPath := []
  walk := fun _ => []
  readLines := fun _ => none
  gh := ghEnvDown

/-- A package environment with no matching distribution and a single
`version.py` whose first line parses to no version. -/
def envJunkVersionFile : PkgEnv where
  distributions := []
  sysPath := ["/lib/pkg"]
  walk := fun p =>
    if p = "/lib/pkg/.." then [("/lib/pkg/..", [], ["version.py"])] else []
  readLines := fun f =>
    if f = "/lib/pkg/../version.py" then some ["junk\n"] else none
  gh := ghEnvDown

/-- A package environment with nothing installed at all. -/
def envNothingFound : PkgEnv where
  distributions := []
  sysPath := []
  walk := fun _ => []
  readLines := fun _ => none
  gh := ghEnvDown

/- ===== Helper lemmas about the string primitives ===== -/

theorem pySplit_ne_nil (cs : List Char) (sep : Char) : pySplit cs sep ≠ [] := by
  cases cs with
  | nil => simp [pySplit]
  | cons c rest =>
    simp only [pySplit]
    split
    · simp
    · split <;> simp

theorem pySplit_no_sep {cs : List Char} {sep : Char} (h : sep ∉ cs) :
    pySplit cs sep = [cs] := by
  induction cs with
  | nil => rfl
  | cons x rest ih =>
    have hx : ¬x = sep := fun he => h (he ▸ List.mem_cons_self x rest)
    have hrest : sep ∉ rest := fun hr => h (List.mem_cons_of_mem x hr)
    simp [pySplit, ih hrest, hx]

theorem pySplit_single {a b : List Char} {sep : Char} (ha : sep ∉ a)
    (hb : sep ∉ b) : pySplit (a ++ sep :: b) sep = [a, b] := by
  induction a with
  | nil => simp [pySplit, pySplit_no_sep hb]
  | cons x a' ih =>
    have hx : ¬x = sep := fun he => ha (he ▸ List.mem_cons_self x a')
    have ha' : sep ∉ a' := fun hr => ha (List.mem_cons_of_mem x hr)
    simp [pySplit, ih ha', hx]

theorem mem_pySplit {c : Char} {cs : List Char} {sep : Char} (h : c ∈ cs) :
    c = sep ∨ ∃ p ∈ pySplit cs sep, c ∈ p := by
  induction cs with
  | nil => cases h
  | cons x rest ih =>
    rcases heq : pySplit rest sep with _ | ⟨h1, t⟩
    · exact absurd heq (pySplit_ne_nil rest sep)
    rcases List.mem_cons.mp h with rfl | hrest
    · by_cases hx : c = sep
      · exact Or.inl hx
      · refine Or.inr ⟨c :: h1, ?_, List.mem_cons_self c h1⟩
        simp [pySplit, heq, hx]
    · rcases ih hrest with hsep | ⟨p, hp, hcp⟩
      · exact Or.inl hsep
      · rw [heq] at hp
        by_cases hx : x = sep
        · refine Or.inr ⟨p, ?_, hcp⟩
          simp only [pySplit, heq, if_pos hx]
          exact List.mem_cons_of_mem _ hp
        · rcases List.mem_cons.mp hp with rfl | hpt
          · refine Or.inr ⟨x :: p, ?_, List.mem_cons_of_mem _ hcp⟩
            simp [pySplit, heq, hx]
          · refine Or.inr ⟨p, ?_, hcp⟩
            simp only [pySplit, heq, if_neg hx]
            exact List.mem_cons_of_mem _ hpt

theorem splitFirst_eq (sep : Char) (cs : List Char) :
    cs = (splitFirst sep cs).1 ++ ((splitFirst sep cs).2.elim [] (sep :: ·)) := by
  induction cs with
  | nil => rfl
  | cons c rest ih =>
    by_cases hc : c = sep
    · simp [splitFirst, hc]
    · simp only [splitFirst, if_neg hc, List.cons_append]
      exact congrArg (c :: ·) ih

theorem splitFirst_fst_not_mem (sep : Char) (cs : List Char) :
    sep ∉ (splitFirst sep cs).1 := by
  induction cs with
  | nil => simp [splitFirst]
  | cons c rest ih =>
    by_cases hc : c = sep
    · simp [splitFirst, hc]
    · simp only [splitFirst, if_neg hc, List.mem_cons]
      rintro (rfl | hmem)
      · exact hc rfl
      · exact ih hmem

theorem dropWhile_append_all {P : Char → Bool} {a : List Char} (l : List Char)
    (ha : ∀ c ∈ a, P c = true) :
    List.dropWhile P (a ++ l) = List.dropWhile P l := by
  induction a with
  | nil => rfl
  | cons x a' ih =>
    rw [List.cons_append, List.dropWhile_cons,
      if_pos (ha x (List.mem_cons_self x a'))]
    exact ih (fun c hc => ha c (List.mem_cons_of_mem x hc))

theorem dropWhile_all {P : Char → Bool} {a : List Char}
    (ha : ∀ c ∈ a, P c = true) : List.dropWhile P a = [] := by
  have h := dropWhile_append_all (P := P) (a := a) [] ha
  simpa using h

theorem dropWhile_head_false {P : Char → Bool} {v : List Char}
    (hh : ∀ c, v.head? = some c → P c = false) :
    List.dropWhile P v = v := by
  cases v with
  | nil => rfl
  | cons x v' =>
    rw [List.dropWhile_cons]
    simp [hh x rfl]

theorem pyStrip_sandwich {S a v b : List Char}
    (ha : ∀ c ∈ a, c ∈ S) (hb : ∀ c ∈ b, c ∈ S)
    (hh : ∀ c, v.head? = some c → c ∉ S)
    (hl : ∀ c, v.getLast? = some c → c ∉ S) :
    pyStrip (a ++ v ++ b) S = v := by
  have ha' : ∀ c ∈ a, (fun c => decide (c ∈ S)) c = true :=
    fun c hc => by simpa using ha c hc
  have hb' : ∀ c ∈ b, (fun c => decide (c ∈ S)) c = true :=
    fun c hc => by simpa using hb c hc
  unfold pyStrip
  cases v with
  | nil =>
    rw [List.append_nil, dropWhile_append_all b ha', dropWhile_all hb']
    rfl
  | cons x v' =>
    have hb'' : ∀ c ∈ b.reverse, (fun c => decide (c ∈ S)) c = true :=
      fun c hc => hb' c (List.mem_reverse.mp hc)
    rw [List.append_assoc, dropWhile_append_all ((x :: v') ++ b) ha',
      List.cons_append, List.dropWhile_cons]
    have hx : (decide (x ∈ S)) = false := by simpa using hh x rfl
    have hlast : ∀ c, (v'.reverse ++ [x]).head? = some c →
        (fun c => decide (c ∈ S)) c = false := by
      intro c hc
      rw [← List.reverse_cons, List.head?_reverse] at hc
      simpa using hl c hc
    rw [if_neg (by simp [hx]), List.reverse_cons, List.reverse_append,
      List.append_assoc, dropWhile_append_all (v'.reverse ++ [x]) hb'',
      dropWhile_head_false hlast, ← List.reverse_cons, List.reverse_reverse]

/- ===== Character lemmas about the semver language ===== -/

theorem mem_of_head? {l : List Char} {c : Char} (h : l.head? = some c) :
    c ∈ l := by
  cases l with
  | nil => cases h
  | cons x t =>
    have hx : x = c := by simpa using h
    exact hx ▸ List.mem_cons_self x t

theorem mem_of_getLast? {l : List Char} {c : Char} (h : l.getLast? = some c) :
    c ∈ l := by
  rw [← List.head?_reverse] at h
  exact List.mem_reverse.mp (mem_of_head? h)

theorem isDigit_of_between {c : Char} (h1 : '1' ≤ c) (h2 : c ≤ '9') :
    c.isDigit = true := by
  simp only [Char.isDigit, Bool.and_eq_true, decide_eq_true_iff, ge_iff_le]
  have h1' : ('1' : Char).val ≤ c.val := h1
  have h2' : c.val ≤ ('9' : Char).val := h2
  exact ⟨UInt32.le_trans (by decide) h1', h2'⟩

theorem isNumericNoLeadZero_chars {p : List Char}
    (h : isNumericNoLeadZero p = true) : ∀ c ∈ p, c.isDigit = true := by
  cases p with
  | nil => exact absurd h (by simp [isNumericNoLeadZero])
  | cons x rest =>
    intro c hc
    simp only [isNumericNoLeadZero, Bool.or_eq_true, Bool.and_eq_true] at h
    rcases h with ⟨hx, hrest⟩ | ⟨⟨h1, h2⟩, hall⟩
    · have hx' : x = '0' := by simpa using hx
      have hr : rest = [] := by simpa using hrest
      subst hx'; subst hr
      rcases List.mem_cons.mp hc with rfl | h0
      · decide
      · cases h0
    · rcases List.mem_cons.mp hc with rfl | hcr
      · exact isDigit_of_between (by simpa using h1) (by simpa using h2)
      · simp only [List.all_eq_true] at hall
        simpa using hall c hcr

theorem goodChar_of_digit {c : Char} (h : c.isDigit = true) :
    goodChar c = true := by
  simp [goodChar, h]

theorem goodChar_of_alnumHyphen {c : Char} (h : isAlnumHyphen c = true) :
    goodChar c = true := by
  simp only [isAlnumHyphen, Bool.or_eq_true] at h
  simp only [goodChar, Bool.or_eq_true]
  tauto

theorem isAlnumHyphen_of_digit {c : Char} (h : c.isDigit = true) :
    isAlnumHyphen c = true := by
  simp [isAlnumHyphen, h]

theorem isPreId_chars {p : List Char} (h : isPreId p = true) :
    ∀ c ∈ p, isAlnumHyphen c = true := by
  intro c hc
  rcases Bool.or_eq_true_iff.mp h with hnum | hword
  · exact isAlnumHyphen_of_digit (isNumericNoLeadZero_chars hnum c hc)
  · have hall := (Bool.and_eq_true_iff.mp (Bool.and_eq_true_iff.mp hword).1).2
    simp only [List.all_eq_true] at hall
    exact hall c hc

theorem isBuildId_chars {p : List Char} (h : isBuildId p = true) :
    ∀ c ∈ p, isAlnumHyphen c = true := by
  intro c hc
  have hall := (Bool.and_eq_true_iff.mp h).2
  simp only [List.all_eq_true] at hall
  exact hall c hc

theorem isPre_chars {p : List Char} (h : isPre p = true) :
    ∀ c ∈ p, isAlnumHyphen c = true ∨ c = '.' := by
  intro c hc
  rcases @mem_pySplit c p '.' hc with rfl | ⟨q, hq, hcq⟩
  · exact Or.inr rfl
  · simp only [isPre, List.all_eq_true] at h
    exact Or.inl (isPreId_chars (h q hq) c hcq)

theorem isBuild_chars {p : List Char} (h : isBuild p = true) :
    ∀ c ∈ p, isAlnumHyphen c = true ∨ c = '.' := by
  intro c hc
  rcases @mem_pySplit c p '.' hc with rfl | ⟨q, hq, hcq⟩
  · exact Or.inr rfl
  · simp only [isBuild, List.all_eq_true] at h
    exact Or.inl (isBuildId_chars (h q hq) c hcq)

theorem isCore_parts {p : List Char} (h : isCore p = true) :
    ∀ q ∈ pySplit p '.', isNumericNoLeadZero q = true := by
  unfold isCore at h
  split at h
  next a b c3 heq =>
    intro q hq
    rw [heq] at hq
    rcases Bool.and_eq_true_iff.mp h with ⟨hab, hc3⟩
    rcases Bool.and_eq_true_iff.mp hab with ⟨ha, hb⟩
    rcases List.mem_cons.mp hq with rfl | hq2
    · exact ha
    rcases List.mem_cons.mp hq2 with rfl | hq3
    · exact hb
    rcases List.mem_cons.mp hq3 with rfl | hq4
    · exact hc3
    · cases hq4
  next => exact absurd h (by simp)

theorem isCore_chars {p : List Char} (h : isCore p = true) :
    ∀ c ∈ p, c.isDigit = true ∨ c = '.' := by
  intro c hc
  rcases @mem_pySplit c p '.' hc with rfl | ⟨q, hq, hcq⟩
  · exact Or.inr rfl
  · exact Or.inl (isNumericNoLeadZero_chars (isCore_parts h q hq) c hcq)

theorem isSemver_chars {v : List Char} (h : isSemver v = true) :
    ∀ c ∈ v, goodChar c = true := by
  intro c hc
  simp only [isSemver, Bool.and_eq_true] at h
  obtain ⟨⟨hcore, hpre⟩, hbuild⟩ := h
  have hv := splitFirst_eq '+' v
  rw [hv] at hc
  rcases List.mem_append.mp hc with hc1 | hc2
  · have hleft := splitFirst_eq '-' (splitFirst '+' v).1
    rw [hleft] at hc1
    rcases List.mem_append.mp hc1 with hcc | hcp
    · rcases isCore_chars hcore c hcc with hd | rfl
      · exact goodChar_of_digit hd
      · decide
    · rcases hsnd : (splitFirst '-' (splitFirst '+' v).1).2 with _ | pre
      · rw [hsnd] at hcp
        cases hcp
      · rw [hsnd] at hcp hpre
        simp only [Option.elim] at hcp
        rcases List.mem_cons.mp hcp with rfl | hcpre
        · decide
        · rcases isPre_chars hpre c hcpre with hA | rfl
          · exact goodChar_of_alnumHyphen hA
          · decide
  · rcases hsnd : (splitFirst '+' v).2 with _ | bld
    · rw [hsnd] at hc2
      cases hc2
    · rw [hsnd] at hc2 hbuild
      simp only [Option.elim] at hc2
      rcases List.mem_cons.mp hc2 with rfl | hcb
      · decide
      · rcases isBuild_chars hbuild c hcb with hA | rfl
        · exact goodChar_of_alnumHyphen hA
        · decide

theorem isSemver_ne_nil {v : List Char} (h : isSemver v = true) : v ≠ [] := by
  rintro rfl
  exact absurd h (by decide)

theorem semver_char_not_special {v : List Char} (h : isSemver v = true) :
    ∀ c ∈ v, c ≠ '\n' ∧ c ≠ '=' ∧ c ∉ stripChars := by
  intro c hc
  have hg := isSemver_chars h c hc
  refine ⟨?_, ?_, ?_⟩
  · rintro rfl; exact absurd hg (by decide)
  · rintro rfl; exact absurd hg (by decide)
  · intro hm
    have hm' : c = ' ' ∨ c = '"' ∨ c = '\'' := by simpa [stripChars] using hm
    rcases hm' with rfl | rfl | rfl <;> exact absurd hg (by decide)

/- ===== Computation of `candidate` on the shapes of claim C2 ===== -/

theorem pyStrip_id {S v : List Char}
    (hh : ∀ c, v.head? = some c → c ∉ S)
    (hl : ∀ c, v.getLast? = some c → c ∉ S) : pyStrip v S = v := by
  have h := pyStrip_sandwich (S := S) (a := []) (b := []) (v := v)
    (by simp) (by simp) hh hl
  simpa using h

theorem stripChars_ne_nl {c : Char} (h : c ∈ stripChars) : c ≠ '\n' := by
  have h' : c = ' ' ∨ c = '"' ∨ c = '\'' := by simpa [stripChars] using h
  rcases h' with rfl | rfl | rfl <;> decide

theorem stripChars_ne_eq {c : Char} (h : c ∈ stripChars) : c ≠ '=' := by
  have h' : c = ' ' ∨ c = '"' ∨ c = '\'' := by simpa [stripChars] using h
  rcases h' with rfl | rfl | rfl <;> decide

theorem toList_append (a b : String) :
    (a ++ b).toList = a.toList ++ b.toList := by
  cases a; cases b; rfl

theorem candidate_assignment {V : List Char} (hV : isSemver V = true) :
    candidate ("__version__ = \"".toList ++ V ++ "\"".toList) = V := by
  have hchars := semver_char_not_special hV
  have hnl : pyStrip ("__version__ = \"".toList ++ V ++ "\"".toList) ['\n'] =
      "__version__ = \"".toList ++ V ++ "\"".toList := by
    apply pyStrip_id
    · intro c hc
      have h0 : ("__version__ = \"".toList ++ V ++ "\"".toList).head? =
          some '_' := rfl
      have hcc : '_' = c := by
        have := h0.symm.trans hc
        simpa using this
      subst hcc
      decide
    · intro c hc
      have h0 : ("__version__ = \"".toList ++ V ++ "\"".toList).getLast? =
          some '"' := List.getLast?_concat _
      have hcc : '"' = c := by
        have := h0.symm.trans hc
        simpa using this
      subst hcc
      decide
  have hsplit : "__version__ = \"".toList ++ V ++ "\"".toList =
      "__version__ ".toList ++ '=' :: (" \"".toList ++ V ++ "\"".toList) := rfl
  have hAnmem : '=' ∉ "__version__ ".toList := by decide
  have hBnmem : '=' ∉ " \"".toList ++ V ++ "\"".toList := by
    intro hm
    rcases List.mem_append.mp hm with hm1 | hm2
    · rcases List.mem_append.mp hm1 with hm0 | hmV
      · exact absurd hm0 (by decide)
      · exact (hchars '=' hmV).2.1 rfl
    · exact absurd hm2 (by decide)
  simp only [candidate]
  rw [hnl, hsplit, pySplit_single hAnmem hBnmem]
  simp only [List.length_cons, List.length_nil, Nat.reduceAdd, List.getD]
  rw [if_pos (by norm_num)]
  apply pyStrip_sandwich
  · intro c hc
    have h' : c = ' ' ∨ c = '"' := by simpa using hc
    rcases h' with rfl | rfl <;> decide
  · intro c hc
    have h' : c = '"' := by simpa using hc
    subst h'
    decide
  · intro c hc
    exact (hchars c (mem_of_head? hc)).2.2
  · intro c hc
    exact (hchars c (mem_of_getLast? hc)).2.2

theorem candidate_surrounded {V nlA sq1 sq2 nlB : List Char}
    (hV : isSemver V = true)
    (hA : ∀ c ∈ nlA, c = '\n') (hB : ∀ c ∈ nlB, c = '\n')
    (h1 : ∀ c ∈ sq1, c ∈ stripChars) (h2 : ∀ c ∈ sq2, c ∈ stripChars) :
    candidate (nlA ++ (sq1 ++ V ++ sq2) ++ nlB) = V := by
  have hchars := semver_char_not_special hV
  have hVne := isSemver_ne_nil hV
  have hhead : ∀ c, (sq1 ++ V ++ sq2).head? = some c → c ≠ '\n' := by
    intro c hc
    rw [List.append_assoc, List.head?_append] at hc
    cases hs : sq1.head? with
    | some s =>
      rw [hs] at hc
      have : s = c := by simpa [Option.or] using hc
      exact this ▸ stripChars_ne_nl (h1 s (mem_of_head? hs))
    | none =>
      rw [hs] at hc
      simp only [Option.or] at hc
      rw [List.head?_append] at hc
      cases hv : V.head? with
      | some x =>
        rw [hv] at hc
        have : x = c := by simpa [Option.or] using hc
        exact this ▸ (hchars x (mem_of_head? hv)).1
      | none =>
        exact absurd (by simpa using hv) hVne
  have hlast : ∀ c, (sq1 ++ V ++ sq2).getLast? = some c → c ≠ '\n' := by
    intro c hc
    cases hs2 : sq2 with
    | nil =>
      rw [hs2, List.append_nil] at hc
      rw [List.getLast?_append_of_ne_nil sq1 hVne] at hc
      exact (hchars c (mem_of_getLast? hc)).1
    | cons y t =>
      rw [List.getLast?_append_of_ne_nil (sq1 ++ V) (by simp [hs2])] at hc
      refine stripChars_ne_nl (h2 c ?_)
      exact mem_of_getLast? hc
  have hnl : pyStrip (nlA ++ (sq1 ++ V ++ sq2) ++ nlB) ['\n'] =
      sq1 ++ V ++ sq2 := by
    apply pyStrip_sandwich
    · intro c hc; simp [hA c hc]
    · intro c hc; simp [hB c hc]
    · intro c hc
      simpa using hhead c hc
    · intro c hc
      simpa using hlast c hc
  have hne : '=' ∉ sq1 ++ V ++ sq2 := by
    intro hm
    rcases List.mem_append.mp hm with hm1 | hm2
    · rcases List.mem_append.mp hm1 with hm0 | hmV
      · exact stripChars_ne_eq (h1 '=' hm0) rfl
      · exact (hchars '=' hmV).2.1 rfl
    · exact stripChars_ne_eq (h2 '=' hm2) rfl
  simp only [candidate]
  rw [hnl, pySplit_no_sep hne]
  simp only [List.length_cons, List.length_nil]
  rw [if_neg (by norm_num)]
  apply pyStrip_sandwich h1 h2
  · intro c hc
    exact (hchars c (mem_of_head? hc)).2.2
  · intro c hc
    exact (hchars c (mem_of_getLast? hc)).2.2

theorem semverSearch_of_isSemver {v : List Char} (h : isSemver v = true) :
    semverSearch v = v := by
  unfold semverSearch
  rw [if_pos h]

theorem semverSearch_of_not_matchable {v : List Char}
    (h : semverMatchable v = false) : semverSearch v = [] := by
  unfold semverSearch
  simp only [semverMatchable, Bool.or_eq_false_iff, Bool.and_eq_false_iff] at h
  rw [if_neg (by simp [h.1])]
  rcases h.2 with h2 | h2
  · rw [if_neg]
    intro hcon
    rw [hcon.1] at h2
    simp at h2
  · rw [if_neg]
    intro hcon
    rw [h2] at hcon
    simp at hcon

/- ===== Helper lemmas about the version lookup functions ===== -/

theorem gh_warnings_cases (genv : GHEnv) (kw : GHKwargs) :
    (gh_call genv kw).warnings = [] ∨
    (gh_call genv kw).warnings = [Warning.failedToReachGithub] := by
  unfold gh_call get_latest_version_from_github
  cases ghTryBody genv kw.repo kw.owner kw.branch kw.source
      kw.path_to_version_file with
  | some v => exact Or.inl rfl
  | none =>
    by_cases hw : kw.warn = true
    · right; simp [hw]
    · left; simp [hw]

theorem notLatest_not_mem_gh (genv : GHEnv) (kw : GHKwargs)
    {p v l : String} :
    Warning.notLatestVersion p v l ∉ (gh_call genv kw).warnings := by
  rcases gh_warnings_cases genv kw with h | h <;> rw [h] <;> simp

theorem sys_ok_warnings {env : PkgEnv} {package pvf : String} {warn : Bool}
    {s : VerResult}
    (hs : get_package_version_from_sys_path env package pvf warn = .ok s)
    (hv : s.version ≠ "") : s.warnings = [] := by
  simp only [get_package_version_from_sys_path] at hs
  split at hs
  · simp only [Except.ok.injEq] at hs
    rw [← hs] at hv
    simp at hv
  · split at hs
    · simp only [Except.ok.injEq] at hs
      rw [← hs] at hv
      simp at hv
    · split at hs
      · cases hs
      · cases hs
      · simp only [Except.ok.injEq] at hs
        rw [← hs]

theorem dist_warn_false_warnings (env : PkgEnv) (package : String) :
    (get_package_version_from_distributions env package false).warnings = [] := by
  unfold get_package_version_from_distributions
  cases distVersions env package <;> rfl

theorem finishVersion_true_spec (env : PkgEnv) (package : String)
    (kw : GHKwargs) (warn : Bool) (v : String) :
    ∃ ws, finishVersion env package true kw warn v [] = .ok ⟨v, ws⟩ ∧
      (Warning.notLatestVersion package v (gh_call env.gh kw).latest ∈ ws ↔
        (v ≠ (gh_call env.gh kw).latest ∧ warn = true)) := by
  refine ⟨(gh_call env.gh kw).warnings ++
    (if v ≠ (gh_call env.gh kw).latest ∧ warn = true then
      [Warning.notLatestVersion package v (gh_call env.gh kw).latest]
     else []), ?_, ?_⟩
  · simp [finishVersion]
  · constructor
    · intro hm
      rcases List.mem_append.mp hm with hg | hcmp
      · exact absurd hg (notLatest_not_mem_gh env.gh kw)
      · by_cases hcond : v ≠ (gh_call env.gh kw).latest ∧ warn = true
        · exact hcond
        · rw [if_neg hcond] at hcmp
          cases hcmp
    · intro hcond
      apply List.mem_append.mpr
      right
      rw [if_pos hcond]
      exact List.mem_cons_self _ _

/- ===== Claim C2 ===== -/

/-- Claim C2 (amended): for every string V in the semver language,
`parse_version` returns V both on the assignment text `__version__ = "V"` and
on V surrounded first by spaces or quotes and then by newlines (newlines
outermost).  The frozen claim quantifies over arbitrary surroundings of
newlines, spaces and quotes; that generality fails — `C2_counterexample`
exhibits one such surrounding, a space placed outside a newline, on which
`parse_version` returns "" instead of V — so this theorem restricts the
surrounding shape and asserts nothing about the remaining interleavings. -/
theorem C2_parse_version_roundtrip (V : String)
    (hV : isSemver V.toList = true) (nlA sq1 sq2 nlB : List Char)
    (hA : ∀ c ∈ nlA, c = '\n') (hB : ∀ c ∈ nlB, c = '\n')
    (h1 : ∀ c ∈ sq1, c ∈ stripChars) (h2 : ∀ c ∈ sq2, c ∈ stripChars) :
    parse_version (assignmentText V) = V ∧
    parse_version ⟨nlA ++ (sq1 ++ V.toList ++ sq2) ++ nlB⟩ = V := by
  constructor
  · unfold parse_version assignmentText
    rw [toList_append, toList_append, candidate_assignment hV,
      semverSearch_of_isSemver hV]
    cases V
    rfl
  · unfold parse_version
    show (⟨semverSearch (candidate (nlA ++ (sq1 ++ V.toList ++ sq2) ++ nlB))⟩ :
      String) = V
    rw [candidate_surrounded hV hA hB h1 h2, semverSearch_of_isSemver hV]
    cases V
    rfl

/-- Witness for claim C2: the amended theorem applied at V = "1.2.3" written
as a quoted string followed by a newline. -/
theorem C2_witness :
    parse_version (assignmentText ("1.2.3")) = "1.2.3" ∧
    parse_version ⟨[] ++ (['"'] ++ "1.2.3".toList ++ ['"']) ++ ['\n']⟩ =
      "1.2.3" :=
  C2_parse_version_roundtrip ("1.2.3") (by decide) [] ['"'] ['"'] ['\n']
    (by decide) (by decide) (by decide) (by decide)

/-- Counterexample for claim C2 as frozen: "1.2.3" is a valid semantic
version and `" \n1.2.3"` is that version surrounded by a space and a newline,
yet `parse_version` returns `""` on it, because the code strips newlines
before spaces and the regex is anchored at the start of the remainder. -/
theorem C2_counterexample :
    isSemver ("1.2.3".toList) = true ∧ parse_version (" \n1.2.3") = "" :=
  ⟨by decide, rfl⟩

/- ===== Claim C4 ===== -/

/-- Claim C4 (amended): for every input string whose candidate remainder —
obtained by stripping newlines at both ends, replacing the text by the segment
between the first and second '=' when it contains '=', and stripping
surrounding spaces and quotes — admits no match of the anchored semver regex
(not even with one trailing newline tolerated), `parse_version` returns the
empty string; the embedding is a total function, so no exception escapes. -/
theorem C4_parse_version_empty (text : String)
    (h : semverMatchable (candidate text.toList) = false) :
    parse_version text = "" := by
  unfold parse_version
  rw [semverSearch_of_not_matchable h]

/-- Witness for claim C4: the amended theorem applied at the input "hello". -/
theorem C4_witness : parse_version ("hello") = "" :=
  C4_parse_version_empty ("hello") (by decide)

/-- Counterexample for claim C4 as frozen: in `"x=1.2.3=y"` the remainder
after stripping the '=' assignment prefix is `"1.2.3=y"`, which contains no
valid semantic version as a whole (first conjunct), so the claim demands
`""`; but the code keeps only the segment between the first and the second
'=' and returns "1.2.3". -/
theorem C4_counterexample :
    semverMatchable ("1.2.3=y".toList) = false ∧
    parse_version ("x=1.2.3=y") = "1.2.3" :=
  ⟨by decide, rfl⟩

theorem get_package_version_dist (env : PkgEnv) (package : String)
    (check : Bool) (kw : GHKwargs) (warn : Bool)
    (hd : (get_package_version_from_distributions env package false).version ≠
      "") :
    get_package_version env package check kw warn =
      finishVersion env package check kw warn
        (get_package_version_from_distributions env package false).version
        (get_package_version_from_distributions env package false).warnings := by
  simp only [get_package_version]
  rw [if_neg hd]

theorem get_package_version_ok_sys (env : PkgEnv) (package : String)
    (check : Bool) (kw : GHKwargs) (warn : Bool) (s : VerResult)
    (hd : (get_package_version_from_distributions env package false).version =
      "")
    (hs : get_package_version_from_sys_path env package ("/..") warn =
      .ok s) :
    get_package_version env package check kw warn =
      (if s.version = "" then .ok ⟨"", s.warnings⟩
       else finishVersion env package check kw warn s.version s.warnings) := by
  simp only [get_package_version]
  rw [if_pos hd, hs]

theorem get_package_version_err_sys (env : PkgEnv) (package : String)
    (check : Bool) (kw : GHKwargs) (warn : Bool) (e : PyErr)
    (hd : (get_package_version_from_distributions env package false).version =
      "")
    (he : get_package_version_from_sys_path env package ("/..") warn =
      .error e) :
    get_package_version env package check kw warn = .error e := by
  simp only [get_package_version]
  rw [if_pos hd, he]

/- ===== Claim C1 ===== -/

/-- Claim C1 (amended): `get_package_version` performs a three-tier fallback:
it returns the version found in the installed distributions when the first
matching distribution's version string is non-empty; otherwise it returns the
result of the sys.path tier (whose version may itself be ""), propagating an
exception raised there; when both tiers produce "" it returns "".  The claim
as frozen — fall back only when no distribution exists — is refuted by
`C1_counterexample`, where a matching distribution with an empty version
string is skipped. -/
theorem C1_get_package_version_tiers (env : PkgEnv) (package : String)
    (kw : GHKwargs) (warn : Bool) :
    (∀ v vs, distVersions env package = v :: vs → v ≠ "" →
      get_package_version env package false kw warn = .ok ⟨v, []⟩) ∧
    ((distVersions env package).headD "" = "" →
      (∀ s, get_package_version_from_sys_path env package ("/..") warn =
          .ok s →
        get_package_version env package false kw warn =
          .ok ⟨s.version, s.warnings⟩) ∧
      (∀ e, get_package_version_from_sys_path env package ("/..") warn =
          .error e →
        get_package_version env package false kw warn = .error e)) := by
  constructor
  · intro v vs hd hv
    have hdist : get_package_version_from_distributions env package false =
        ⟨v, []⟩ := by
      unfold get_package_version_from_distributions
      rw [hd]
    have hdv :
        (get_package_version_from_distributions env package false).version ≠
          "" := by
      rw [hdist]; exact hv
    rw [get_package_version_dist env package false kw warn hdv, hdist]
    simp [finishVersion]
  · intro hhead
    have hdistv :
        (get_package_version_from_distributions env package false).version =
          "" := by
      unfold get_package_version_from_distributions
      cases hd : distVersions env package with
      | nil => rfl
      | cons v vs =>
        rw [hd] at hhead
        simpa using hhead
    constructor
    · intro s hs
      rw [get_package_version_ok_sys env package false kw warn s hdistv hs]
      by_cases hsv : s.version = ""
      · rw [if_pos hsv, hsv]
      · rw [if_neg hsv]
        simp [finishVersion]
    · intro e he
      exact get_package_version_err_sys env package false kw warn e hdistv he

/-- Witness for claim C1: the distributions tier finds version 1.0.0 and it is
returned unchanged. -/
theorem C1_witness :
    get_package_version envDistFound ("pkg") false kwExample true =
      .ok ⟨"1.0.0", []⟩ :=
  (C1_get_package_version_tiers envDistFound ("pkg") kwExample true).1
    ("1.0.0") [] rfl (by decide)

/-- Counterexample for claim C1 as frozen: a version is found in the
distributions for "pkg" (namely the empty string, first conjunct), so the
claim requires it to be returned; but `get_package_version` skips it because
it is falsy and returns "1.2.3" from the sys.path tier instead. -/
theorem C1_counterexample :
    distVersions envEmptyDistVersion ("pkg") = [""] ∧
    get_package_version envEmptyDistVersion ("pkg") false kwExample true =
      .ok ⟨"1.2.3", []⟩ :=
  ⟨rfl, rfl⟩

/- ===== Claim C3 ===== -/

/-- Claim C3: `get_latest_version_from_github` never raises — the embedding is
a total function whose body is guarded by a bare `except:` — and on every
failure the claim lists (unrecognized source; source "commit" with no
path_to_version_file or a failing raw-file request; source "tag"/"release"
with a failing request or an extraction of the response that raises) it
returns `""`, warning exactly when `warn` is true. -/
theorem C3_github_failure_returns_empty (env : GHEnv)
    (repo owner branch source : String) (pvf : Option String) (warn : Bool)
    (h : (source ≠ "commit" ∧ source ≠ "tag" ∧ source ≠ "release")
      ∨ (source = "commit" ∧ ∀ p, pvf = some p →
          env.httpGet (rawFileURL owner repo branch p) = none)
      ∨ (source = "tag" ∧ ∀ body, env.httpGet (tagsURL owner repo) =
          some body → jsonFirstField env body ("name") = none)
      ∨ (source = "release" ∧ ∀ body, env.httpGet (releasesURL owner repo) =
          some body → jsonFirstField env body ("tag_name") = none)) :
    get_latest_version_from_github env repo owner branch source pvf warn =
      ⟨"", if warn then [.failedToReachGithub] else []⟩ := by
  have hbody : ghTryBody env repo owner branch source pvf = none := by
    unfold ghTryBody
    rcases h with ⟨h1, h2, h3⟩ | ⟨rfl, hp⟩ | ⟨rfl, hp⟩ | ⟨rfl, hp⟩
    · rw [if_neg h1, if_neg h2, if_neg h3]
    · rw [if_pos rfl]
      cases pvf with
      | none => rfl
      | some p => simp [hp p rfl]
    · rw [if_neg (by decide), if_pos rfl]
      cases hb : env.httpGet (tagsURL owner repo) with
      | none => rfl
      | some body => simp [hp body hb]
    · rw [if_neg (by decide), if_neg (by decide), if_pos rfl]
      cases hb : env.httpGet (releasesURL owner repo) with
      | none => rfl
      | some body => simp [hp body hb]
  unfold get_latest_version_from_github
  rw [hbody]

/-- Witness for claim C3: an unrecognized source with an unreachable network
returns "" and a warning. -/
theorem C3_witness :
    get_latest_version_from_github ghEnvDown ("microns-utils") ("cajal")
      ("main") ("bogus") none true = ⟨"", [.failedToReachGithub]⟩ :=
  C3_github_failure_returns_empty ghEnvDown ("microns-utils") ("cajal")
    ("main") ("bogus") none true (Or.inl (by decide))

/- ===== Claim C5 ===== -/

/-- Claim C5: when `check_if_latest` is true and an installed version was
found (the run with `check_if_latest = false` returns a non-empty version v),
`get_package_version` queries GitHub with the given kwargs and still returns
v, emitting the not-latest warning exactly when v differs from the GitHub
result and `warn` is true. -/
theorem C5_check_if_latest (env : PkgEnv) (package : String) (kw : GHKwargs)
    (warn : Bool) (v : String) (ws0 : List Warning)
    (h : get_package_version env package false kw warn = .ok ⟨v, ws0⟩)
    (hv : v ≠ "") :
    ∃ ws, get_package_version env package true kw warn = .ok ⟨v, ws⟩ ∧
      (Warning.notLatestVersion package v (gh_call env.gh kw).latest ∈ ws ↔
        (v ≠ (gh_call env.gh kw).latest ∧ warn = true)) := by
  by_cases hd :
      (get_package_version_from_distributions env package false).version = ""
  · cases hs : get_package_version_from_sys_path env package ("/..") warn with
    | error e =>
      rw [get_package_version_err_sys env package false kw warn e hd hs] at h
      cases h
    | ok s =>
      rw [get_package_version_ok_sys env package false kw warn s hd hs] at h
      rw [get_package_version_ok_sys env package true kw warn s hd hs]
      by_cases hsv : s.version = ""
      · rw [if_pos hsv] at h
        simp only [Except.ok.injEq, VerResult.mk.injEq] at h
        exact absurd h.1.symm hv
      · rw [if_neg hsv] at h ⊢
        have hfalse : finishVersion env package false kw warn s.version
            s.warnings = .ok ⟨s.version, s.warnings⟩ := by
          simp [finishVersion]
        rw [hfalse] at h
        simp only [Except.ok.injEq, VerResult.mk.injEq] at h
        have hswnil : s.warnings = [] := sys_ok_warnings hs hsv
        rw [h.1, hswnil]
        exact finishVersion_true_spec env package kw warn v
  · rw [get_package_version_dist env package false kw warn hd] at h
    rw [get_package_version_dist env package true kw warn hd]
    have hfalse : finishVersion env package false kw warn
        (get_package_version_from_distributions env package false).version
        (get_package_version_from_distributions env package false).warnings =
        .ok ⟨(get_package_version_from_distributions env package false).version,
          (get_package_version_from_distributions env package false).warnings⟩ := by
      simp [finishVersion]
    rw [hfalse] at h
    simp only [Except.ok.injEq, VerResult.mk.injEq] at h
    rw [dist_warn_false_warnings env package, h.1]
    exact finishVersion_true_spec env package kw warn v

/-- Witness for claim C5: with version 1.0.0 installed and GitHub
unreachable, the version is returned and the not-latest warning fires. -/
theorem C5_witness :
    ∃ ws, get_package_version envDistFound ("pkg") true kwExample true =
        .ok ⟨"1.0.0", ws⟩ ∧
      (Warning.notLatestVersion ("pkg") ("1.0.0")
          (gh_call envDistFound.gh kwExample).latest ∈ ws ↔
        ("1.0.0" ≠ (gh_call envDistFound.gh kwExample).latest ∧
          true = true)) :=
  C5_check_if_latest envDistFound ("pkg") kwExample true ("1.0.0") [] rfl
    (by decide)

/- ===== Claim C7 ===== -/

/-- Claim C7: for every filesystem and filepath, `validate_filepath` returns
`Path(filepath)` when the path exists, and raises an `AssertionError` exactly
when it does not. -/
theorem C7_validate_filepath (pathExists : PyPath → Bool)
    (filepath : String) :
    (pathExists ⟨filepath⟩ = true →
      filepath_utils.validate_filepath pathExists filepath = .ok ⟨filepath⟩) ∧
    (pathExists ⟨filepath⟩ = false →
      filepath_utils.validate_filepath pathExists filepath =
        .error .assertionError) := by
  constructor
  · intro h
    simp [filepath_utils.validate_filepath, h]
  · intro h
    simp [filepath_utils.validate_filepath, h]

/-- Witness for claim C7: both branches at a concrete one-file filesystem. -/
theorem C7_witness :
    filepath_utils.validate_filepath (fun p => p.path = ("/data")) ("/data") =
      .ok ⟨"/data"⟩ ∧
    filepath_utils.validate_filepath (fun p => p.path = ("/data")) ("/no") =
      .error .assertionError :=
  ⟨(C7_validate_filepath (fun p => p.path = ("/data")) ("/data")).1
      (by decide),
   (C7_validate_filepath (fun p => p.path = ("/data")) ("/no")).2
      (by decide)⟩

/- ===== Claim C8 ===== -/

/-- Claim C8: for every walk environment, name and path, the two duplicated
`find_all_matching_files` implementations return the same matching paths in
the same order, the filepath_utils one wrapping each in `Path`. -/
theorem C8_find_all_matching_files_agree
    (walk : String → List (String × List String × List String))
    (name path : String) :
    filepath_utils.find_all_matching_files walk name path =
      (version_utils.find_all_matching_files walk name path).map PyPath.mk := by
  unfold filepath_utils.find_all_matching_files
    version_utils.find_all_matching_files
  rw [List.map_filterMap]
  congr 1
  funext t
  split <;> rfl

/- ===== Claim C9 ===== -/

/-- Claim C9: before constructing any client, `set_CAVEclient` rewrites the
datastack alias "m65_public" to "minnie65_public_v117" and "m65_live" to
"minnie65_phase3_v1" and passes every other value (including `None`) through
unchanged; the final conjunct shows, against a constructor that records its
arguments, that the constructor receives exactly the rewritten datastack. -/
theorem C9_set_CAVEclient_datastack :
    resolve_datastack (some ("m65_public")) = some ("minnie65_public_v117") ∧
    resolve_datastack (some ("m65_live")) = some ("minnie65_phase3_v1") ∧
    resolve_datastack none = none ∧
    (∀ d : Option String, d ≠ some ("m65_public") → d ≠ some ("m65_live") →
      resolve_datastack d = d) ∧
    (∀ ds tok, set_CAVEclient recordingCaveEnv ds none tok =
      .ok (some ⟨resolve_datastack ds, tok, none⟩)) := by
  refine ⟨rfl, rfl, rfl, ?_, ?_⟩
  · intro d h1 h2
    unfold resolve_datastack
    rw [if_neg h1, if_neg h2]
  · intro ds tok
    rfl

/-- Witness for claim C9: pass-through of a non-alias datastack and the
recorded constructor argument for the "m65_public" alias. -/
theorem C9_witness :
    resolve_datastack (some ("minnie65_phase3_v1")) =
      some ("minnie65_phase3_v1") ∧
    set_CAVEclient recordingCaveEnv (some ("m65_public")) none (some ("tok")) =
      .ok (some ⟨some ("minnie65_public_v117"), some ("tok"), none⟩) :=
  ⟨C9_set_CAVEclient_datastack.2.2.2.1 (some ("minnie65_phase3_v1"))
      (by decide) (by decide),
   C9_set_CAVEclient_datastack.2.2.2.2 (some ("m65_public")) (some ("tok"))⟩

/- ===== Claim C10 ===== -/

/-- Claim C10 (amended): `get_package_version_from_sys_path` returns "" (with
the corresponding warning when `warn` is set) whenever the number of
`version.py` files found under the path built from `sys.path` is zero or
greater than one; when exactly one is found and it is readable and non-empty,
it returns `parse_version` of its first line.  The frozen claim's "exactly
when" is refuted by `C10_counterexample`: the single-file branch can also
return "" when the first line parses to no version. -/
theorem C10_sys_path_cases (env : PkgEnv) (package pvf : String)
    (warn : Bool) :
    ((version_utils.find_all_matching_files env.walk ("version.py")
        (sysPathDir env package pvf)).length = 0 →
      get_package_version_from_sys_path env package pvf warn =
        .ok ⟨"", if warn then [.noVersionPyFound] else []⟩) ∧
    (1 < (version_utils.find_all_matching_files env.walk ("version.py")
        (sysPathDir env package pvf)).length →
      get_package_version_from_sys_path env package pvf warn =
        .ok ⟨"", if warn then [.multipleVersionPyFound] else []⟩) ∧
    (∀ f l ls,
      version_utils.find_all_matching_files env.walk ("version.py")
        (sysPathDir env package pvf) = [f] →
      env.readLines f = some (l :: ls) →
      get_package_version_from_sys_path env package pvf warn =
        .ok ⟨parse_version l, []⟩) := by
  refine ⟨?_, ?_, ?_⟩
  · intro h0
    simp only [get_package_version_from_sys_path]
    rw [if_pos h0]
  · intro h1
    simp only [get_package_version_from_sys_path]
    rw [if_neg (by omega), if_pos h1]
  · intro f l ls hf hr
    simp only [get_package_version_from_sys_path]
    rw [hf]
    simp [hr]

/-- Witness for claim C10: with an empty filesystem no `version.py` is found
and "" is returned with the corresponding warning. -/
theorem C10_witness :
    get_package_version_from_sys_path envNothingFound ("pkg") ("/..") true =
      .ok ⟨"", [.noVersionPyFound]⟩ :=
  (C10_sys_path_cases envNothingFound ("pkg") ("/..") true).1 rfl

/-- Counterexample for claim C10 as frozen: exactly one readable, non-empty
`version.py` is found (first two conjuncts), so by the claim's "exactly when"
the result must be non-empty; but its first line parses to no version and the
function still returns "". -/
theorem C10_counterexample :
    (version_utils.find_all_matching_files envJunkVersionFile.walk
        ("version.py")
        (sysPathDir envJunkVersionFile ("pkg") ("/.."))).length = 1 ∧
    envJunkVersionFile.readLines ("/lib/pkg/../version.py") =
      some ["junk\n"] ∧
    get_package_version_from_sys_path envJunkVersionFile ("pkg") ("/..")
      true = .ok ⟨"", []⟩ :=
  ⟨rfl, rfl, rfl⟩
